import Mathlib

/-!
Verification development for the go-alac-bot song acquisition pipeline.

Shallow embedding of the Go sources:
  * `src/bot/song_queue.go`             — bounded request queue (AddRequest, processQueue)
  * `src/downloader/errors.go`          — error kinds and the progress tracker channel
  * `src/downloader/song_downloader_impl.go`
        — GetEnhanceHls, ExtractMedia, extractSong, decryptSong, WriteM4a
  * `src/unnamed/part_009`              — ExtractURLMeta (Apple Music URL parser)

Machine integers are modelled as `Nat` with explicit `% 2^w` where Go
truncates; byte strings are `List Nat` (each element a byte value);
fallible Go functions return `Except`.
-/

namespace AlacBot

/-! ## Request queue (src/bot/song_queue.go) -/

/-- Queue status enum (`QueueStatus`, song_queue.go:27). -/
inductive QueueStatus where
  | queued
  | processing
  | completed
  | failed
deriving DecidableEq, Repr

/-- One request (`QueueRequest`, song_queue.go:16); `RequestTime` is dropped
(wall clock) and the identifying fields kept. -/
structure QueueRequest where
  uniqueID : String
  senderID : Int
  chatID : Int
  messageID : Int
  url : String
  status : QueueStatus
deriving DecidableEq, Repr

/-- Queue state: the pending list plus the processing slot
(`SongQueue.queue`, `SongQueue.processing`, song_queue.go:53). -/
structure SongQueueState where
  queue : List QueueRequest
  processing : Option QueueRequest
deriving DecidableEq, Repr

/-- `MaxQueueSize` (song_queue.go:12). -/
def MaxQueueSize : Nat := 7

/-- `GenerateUniqueID` (song_queue.go:73): `fmt.Sprintf("%d:%d:%d", ...)`. -/
def GenerateUniqueID (senderID chatID : Int) (messageID : Int) : String :=
  s!"{senderID}:{chatID}:{messageID}"

/-- `findRequestByID` (song_queue.go:151): searches the pending list only. -/
def findRequestByID (queue : List QueueRequest) (uniqueID : String) :
    Option QueueRequest :=
  queue.find? (fun r => r.uniqueID = uniqueID)

/-- `AddRequest` (song_queue.go:78): reject when the pending list holds
`MaxQueueSize` requests, then reject duplicates (pending list only), else
append with status queued. -/
def AddRequest (st : SongQueueState) (senderID chatID : Int) (messageID : Int)
    (url : String) : Except String (SongQueueState × QueueRequest) :=
  if st.queue.length ≥ MaxQueueSize then
    .error s!"queue is full (max {MaxQueueSize} requests)"
  else
    let uniqueID := GenerateUniqueID senderID chatID messageID
    match findRequestByID st.queue uniqueID with
    | some _ => .error s!"request with ID {uniqueID} already exists"
    | none =>
      let request : QueueRequest :=
        { uniqueID := uniqueID, senderID := senderID, chatID := chatID,
          messageID := messageID, url := url, status := .queued }
      .ok ({ st with queue := st.queue ++ [request] }, request)

/-- The take step of `processQueue` (song_queue.go:192-202): pop the head of
the pending list into the processing slot. -/
def takeNext (st : SongQueueState) : Option (QueueRequest × SongQueueState) :=
  match st.queue with
  | [] => none
  | r :: rest => some (r, { queue := rest, processing := some r })

/-- The drain loop of `processQueue` (song_queue.go:190-236): process the
head (`outcome r = true` means `ProcessDownload` returned nil), record the
terminal status, continue with the rest of the queue. -/
def processQueueDrain (outcome : QueueRequest → Bool) :
    List QueueRequest → List (QueueRequest × QueueStatus)
  | [] => []
  | r :: rest =>
    (r, if outcome r then QueueStatus.completed else QueueStatus.failed)
      :: processQueueDrain outcome rest

/-! ## Error kinds and the progress tracker (src/downloader/errors.go) -/

/-- `ErrorType` (errors.go:8). -/
inductive ErrorType where
  | invalidURL
  | networkFailure
  | decryptionFailure
  | fileSystemError
  | alacNotAvailable
  | timeout
  | cancelled
  | unknown
deriving DecidableEq, Repr

/-- A `DownloadError` (errors.go:46), keeping kind, message and cause text. -/
structure DownloadError where
  etype : ErrorType
  message : String
  cause : String
deriving DecidableEq, Repr

/-- A progress update carried on the tracker's channel
(`progressUpdate`, errors.go:142); phase and the two byte counters. -/
structure ProgressUpdate where
  phase : Int
  bytesProcessed : Int
  totalBytes : Int
deriving DecidableEq, Repr

/-- Capacity of the tracker's internal channel:
`make(chan progressUpdate, 10)` in `Start` (errors.go:173). -/
def updateChanCapacity : Nat := 10

/-- The channel send in `UpdateProgress` (errors.go:235-239): a
`select`/`default` non-blocking send.  The buffer (front = oldest) receives
the update when it has room; when it is full the `default` branch runs and
the NEW update is skipped, leaving the buffer unchanged. -/
def updateProgressSend (buffer : List ProgressUpdate) (u : ProgressUpdate) :
    List ProgressUpdate :=
  if buffer.length < updateChanCapacity then buffer ++ [u] else buffer

/-- What the spec claims for the overflow policy: drop the OLDEST buffered
update so the new one is retained.  Written from the spec's words, for
comparison with `updateProgressSend`. -/
def specDropOldestSend (buffer : List ProgressUpdate) (u : ProgressUpdate) :
    List ProgressUpdate :=
  if buffer.length < updateChanCapacity then buffer ++ [u]
  else buffer.tail ++ [u]

/-! ## Manifest helper response (GetEnhanceHls, song_downloader_impl.go:487) -/

/-- Byte/char class trimmed by `bytes.TrimSpace` for ASCII input (the helper
replies with an ASCII URL terminated by a newline). -/
def isGoSpace (c : Char) : Bool :=
  c = ' ' || c = '\t' || c = '\n' || c = '\u000b' || c = '\u000c' || c = '\r'

/-- `bytes.TrimSpace` on the response (song_downloader_impl.go:515). -/
def goTrimSpace (s : String) : String :=
  ⟨(s.data.dropWhile isGoSpace).reverse.dropWhile isGoSpace |>.reverse⟩

/-- Processing of the newline-terminated helper response
(song_downloader_impl.go:514-520): trim; empty payload is an error. -/
def processDeviceResponse (raw : String) : Except String String :=
  let t := goTrimSpace raw
  if t = "" then .error "received empty response from device" else .ok t

/-- How `Download` wraps a `GetEnhanceHls` failure
(song_downloader_impl.go:137-140): `ErrorNetworkFailure` with the fixed
message, carrying the cause. -/
def getEnhanceHlsStep (raw : String) : Except DownloadError String :=
  match processDeviceResponse raw with
  | .error m =>
    .error { etype := .networkFailure,
             message := "failed to get enhanced HLS URL", cause := m }
  | .ok u => .ok u

/-- A sample concrete request used by witnesses. -/
def demoRequest : QueueRequest :=
  { uniqueID := "x", senderID := 0, chatID := 0, messageID := 0,
    url := "u", status := .queued }

/-- A sample concrete request whose key is `"1:2:3"`, used by witnesses. -/
def demoRequest123 : QueueRequest :=
  { uniqueID := "1:2:3", senderID := 1, chatID := 2, messageID := 3,
    url := "u", status := .queued }

/-! ## Fragment reader (extractSong, song_downloader_impl.go:605-764) -/

/-- go-mp4 `FullBox.CheckFlag`: `GetFlags() & flag != 0`. -/
def checkFlag (flags mask : Nat) : Bool := flags.land mask ≠ 0

/-- `moov/mvex/trex` defaults used as last fallback. -/
structure Trex where
  defaultSampleDuration : Nat
  defaultSampleSize : Nat
deriving DecidableEq, Repr

/-- `moof/traf/tfhd`: its full-box flags, sample description index and
per-fragment defaults. -/
structure Tfhd where
  flags : Nat
  sampleDescriptionIndex : Nat
  defaultSampleDuration : Nat
  defaultSampleSize : Nat
deriving DecidableEq, Repr

/-- One `trun` entry: per-sample duration and size fields. -/
structure TrunEntry where
  sampleDuration : Nat
  sampleSize : Nat
deriving DecidableEq, Repr

/-- One `moof/traf/trun` box: its full-box flags and entries. -/
structure Trun where
  flags : Nat
  entries : List TrunEntry
deriving DecidableEq, Repr

/-- `SampleInfo` (song_downloader_impl.go:1059). -/
structure SampleInfo where
  data : List Nat
  duration : Nat
  descIndex : Nat
deriving DecidableEq, Repr

/-- Size precedence of extractSong (song_downloader_impl.go:727-737):
trun flag 0x200 → per-entry size; else tfhd flag 0x10 → tfhd default; else
trex default. -/
def chosenSize (trunFlags : Nat) (tfhd : Tfhd) (trex : Trex)
    (en : TrunEntry) : Nat :=
  if checkFlag trunFlags 0x200 then en.sampleSize
  else if checkFlag tfhd.flags 0x10 then tfhd.defaultSampleSize
  else trex.defaultSampleSize

/-- Duration precedence of extractSong (song_downloader_impl.go:739-746):
trun flag 0x100 → per-entry duration; else tfhd flag 0x8 → tfhd default;
else trex default. -/
def chosenDuration (trunFlags : Nat) (tfhd : Tfhd) (trex : Trex)
    (en : TrunEntry) : Nat :=
  if checkFlag trunFlags 0x100 then en.sampleDuration
  else if checkFlag tfhd.flags 0x8 then tfhd.defaultSampleDuration
  else trex.defaultSampleDuration

/-- `index := tfhd.SampleDescriptionIndex; if index != 0 { index-- }`
(song_downloader_impl.go:709-712). -/
def tfhdDescIndex (tfhd : Tfhd) : Nat :=
  if tfhd.sampleDescriptionIndex ≠ 0 then tfhd.sampleDescriptionIndex - 1
  else tfhd.sampleDescriptionIndex

/-- The inner entry loop (song_downloader_impl.go:724-749): each entry takes
its chosen size off the front of the remaining `mdat` payload.  A Go slice
`mdat[:n]` with `n > len(mdat)` panics; the panic is modelled as a distinct
error value. -/
def consumeEntries (trunFlags : Nat) (tfhd : Tfhd) (trex : Trex)
    (descIndex : Nat) :
    List TrunEntry → List Nat → Except String (List SampleInfo × List Nat)
  | [], mdat => .ok ([], mdat)
  | en :: rest, mdat =>
    if chosenSize trunFlags tfhd trex en ≤ mdat.length then
      match consumeEntries trunFlags tfhd trex descIndex rest
          (mdat.drop (chosenSize trunFlags tfhd trex en)) with
      | .ok (ss, rem) =>
        .ok ({ data := mdat.take (chosenSize trunFlags tfhd trex en),
               duration := chosenDuration trunFlags tfhd trex en,
               descIndex := descIndex } :: ss, rem)
      | .error e => .error e
    else .error "panic: slice bounds out of range"

/-- The trun loop (song_downloader_impl.go:723): all truns of the (single)
traf consume from the same running `mdat` payload. -/
def consumeTruns (tfhd : Tfhd) (trex : Trex) (descIndex : Nat) :
    List Trun → List Nat → Except String (List SampleInfo × List Nat)
  | [], mdat => .ok ([], mdat)
  | t :: ts, mdat =>
    match consumeEntries t.flags tfhd trex descIndex t.entries mdat with
    | .ok (ss, rem) =>
      match consumeTruns tfhd trex descIndex ts rem with
      | .ok (ss2, rem2) => .ok (ss ++ ss2, rem2)
      | .error e => .error e
    | .error e => .error e

/-- Processing of one `moof`/`mdat` pair (song_downloader_impl.go:700-754):
consume every trun entry, then require the remaining `mdat` payload to be
exactly empty (`if len(mdat) != 0 { return errors.New("offset mismatch") }`). -/
def processMoof (trex : Trex) (tfhd : Tfhd) (truns : List Trun)
    (mdat : List Nat) : Except String (List SampleInfo) :=
  match consumeTruns tfhd trex (tfhdDescIndex tfhd) truns mdat with
  | .ok (ss, rem) => if rem.length ≠ 0 then .error "offset mismatch" else .ok ss
  | .error e => .error e

/-- The chosen sizes of all entries of all truns of a moof, in order. -/
def moofSizes (tfhd : Tfhd) (trex : Trex) (truns : List Trun) : List Nat :=
  (truns.map (fun t => t.entries.map (chosenSize t.flags tfhd trex))).flatten

/-- The chosen durations of all entries of all truns of a moof, in order. -/
def moofDurations (tfhd : Tfhd) (trex : Trex) (truns : List Trun) : List Nat :=
  (truns.map (fun t => t.entries.map (chosenDuration t.flags tfhd trex))).flatten

/-- Cutting a byte list into consecutive chunks of the given sizes. -/
def splitSizes (mdat : List Nat) : List Nat → List (List Nat)
  | [] => []
  | s :: rest => mdat.take s :: splitSizes (mdat.drop s) rest

/-! ## Sample decryptor wire protocol (decryptSong,
song_downloader_impl.go:767-869) -/

/-- `prefetchKey` (song_downloader_impl.go:33). -/
def prefetchKey : String := "skd://itunes.apple.com/P000000000/s1/e1"

/-- `defaultId` (song_downloader_impl.go:32). -/
def defaultId : String := "0"

/-- UTF-8 encoding of one character (Go strings are byte strings of the
UTF-8 encoding; `len` and `[]byte` conversions act on these bytes). -/
def utf8EncodeChar (c : Char) : List Nat :=
  let n := c.toNat
  if n < 0x80 then [n]
  else if n < 0x800 then [0xC0 + n / 64, 0x80 + n % 64]
  else if n < 0x10000 then
    [0xE0 + n / 4096, 0x80 + n / 64 % 64, 0x80 + n % 64]
  else
    [0xF0 + n / 262144, 0x80 + n / 4096 % 64, 0x80 + n / 64 % 64,
     0x80 + n % 64]

/-- The UTF-8 bytes of a string. -/
def utf8Bytes (s : String) : List Nat :=
  (s.data.map utf8EncodeChar).flatten

/-- `binary.Write(conn, binary.LittleEndian, uint32(n))`: the four
little-endian bytes of `n` truncated to 32 bits. -/
def le32 (n : Nat) : List Nat :=
  [n % 256, n / 256 % 256, n / 65536 % 256, n / 16777216 % 256]

/-- The per-group header written by decryptSong
(song_downloader_impl.go:809-831): `u8 len(id) ‖ id ‖ u8 len(key) ‖ key`,
with `id = "0"` exactly when the key equals the prefetch key constant and
the song id otherwise (`byte(len ...)` truncates to 8 bits). -/
def groupHeader (songId key : String) : List Nat :=
  let id := if key = prefetchKey then defaultId else songId
  [(utf8Bytes id).length % 256] ++ utf8Bytes id ++
    [(utf8Bytes key).length % 256] ++ utf8Bytes key

/-- The byte stream decryptSong writes to the decryption helper
(song_downloader_impl.go:796-866), as a function of the remaining samples,
the running `lastIndex`, and `len(decrypted)` so far.  Per sample the
plaintext read back has exactly `len(sp.data)` bytes (`io.ReadFull` into a
buffer of that size), so `len(decrypted)` is the sum of the data lengths of
the samples already processed.  The key is `keys[sp.descIndex]`; `Download`
validates `descIndex < len(keys)` before calling decryptSong
(song_downloader_impl.go:204-214), so the `getD` default is never taken on
reachable inputs.  After the last sample five zero bytes are written. -/
def decryptWritesGo (songId : String) (keys : List String) :
    List SampleInfo → Nat → Nat → List Nat
  | [], _, _ => [0, 0, 0, 0, 0]
  | sp :: rest, lastIndex, decLen =>
    (if lastIndex ≠ sp.descIndex then
      (if decLen ≠ 0 then [0, 0, 0, 0] else []) ++
        groupHeader songId (keys.getD sp.descIndex "")
     else []) ++
    le32 sp.data.length ++ sp.data ++
    decryptWritesGo songId keys rest sp.descIndex (decLen + sp.data.length)

/-- The full written stream: `lastIndex` starts at `math.MaxUint8 = 255`
(song_downloader_impl.go:775) and `decrypted` starts empty. -/
def decryptSongWrites (songId : String) (keys : List String)
    (samples : List SampleInfo) : List Nat :=
  decryptWritesGo songId keys samples 255 0

/-- The stream as the claim words it: the current group starts out absent,
a group header is written whenever the sample's descriptor index differs
from the current group's, and the four-zero-byte boundary marker precedes
every group header except the first — i.e. as soon as ANY samples have been
processed (boolean `processed`).  Written from the spec's words, for
comparison with `decryptSongWrites`. -/
def claimStreamGo (songId : String) (keys : List String) :
    List SampleInfo → Option Nat → Bool → List Nat
  | [], _, _ => [0, 0, 0, 0, 0]
  | sp :: rest, cur, processed =>
    (if cur ≠ some sp.descIndex then
      (if processed then [0, 0, 0, 0] else []) ++
        groupHeader songId (keys.getD sp.descIndex "")
     else []) ++
    le32 sp.data.length ++ sp.data ++
    claimStreamGo songId keys rest (some sp.descIndex) true

/-- The claim's stream from the initial state. -/
def specStreamClaim (songId : String) (keys : List String)
    (samples : List SampleInfo) : List Nat :=
  claimStreamGo songId keys samples none false

/-- The amended stream: the boundary marker precedes a group header exactly
when the accumulated plaintext so far is non-empty (some already-processed
sample had a non-empty payload), not merely when any samples were
processed. -/
def amendedStreamGo (songId : String) (keys : List String) :
    List SampleInfo → Option Nat → Nat → List Nat
  | [], _, _ => [0, 0, 0, 0, 0]
  | sp :: rest, cur, doneBytes =>
    (if cur ≠ some sp.descIndex then
      (if doneBytes ≠ 0 then [0, 0, 0, 0] else []) ++
        groupHeader songId (keys.getD sp.descIndex "")
     else []) ++
    le32 sp.data.length ++ sp.data ++
    amendedStreamGo songId keys rest (some sp.descIndex)
      (doneBytes + sp.data.length)

/-- The amended stream from the initial state. -/
def specStreamAmended (songId : String) (keys : List String)
    (samples : List SampleInfo) : List Nat :=
  amendedStreamGo songId keys samples none 0

/-! ## M4A writer: stco patch (WriteM4a, song_downloader_impl.go:1976-2008) -/

/-- The stco rewrite loop (song_downloader_impl.go:1991-1998): starting at
`offset := mdat.Offset + mdat.HeaderSize`, for `i` in `0..n-1` push
`uint32(offset)` whenever `i % 5 == 0` (`chunkSize = 5`,
song_downloader_impl.go:1222), then advance the offset by the i-th sample's
byte length. -/
def stcoGo : List Nat → Nat → Nat → List Nat
  | [], _, _ => []
  | sz :: rest, i, offset =>
    (if i % 5 = 0 then [offset % 4294967296] else []) ++
      stcoGo rest (i + 1) (offset + sz)

/-- The final patched stco chunk-offset table, from the per-sample byte
lengths and the mdat box position. -/
def stcoPatch (sizes : List Nat) (mdatOffset headerSize : Nat) : List Nat :=
  stcoGo sizes 0 (mdatOffset + headerSize)

/-- The entry count of the initially written all-zero stco:
`l := (numSamples + chunkSize - 1) / chunkSize`
(song_downloader_impl.go:1570). -/
def stcoInitialCount (numSamples : Nat) : Nat := (numSamples + 5 - 1) / 5

/-! ## M4A writer: stsd and the alac sample entry (WriteM4a,
song_downloader_impl.go:1394-1467) -/

/-- Big-endian 16-bit bytes of `n` truncated to 16 bits. -/
def be16 (n : Nat) : List Nat := [n / 256 % 256, n % 256]

/-- Big-endian 32-bit bytes of `n` truncated to 32 bits. -/
def be32 (n : Nat) : List Nat :=
  [n / 16777216 % 256, n / 65536 % 256, n / 256 % 256, n % 256]

/-- The `Alac` box parameters (struct `Alac`,
song_downloader_impl.go:1032-1046): an embedded full box (version u8,
flags u24) followed by the codec fields at their declared widths. -/
structure AlacParams where
  version : Nat
  flags : Nat
  frameLength : Nat
  compatibleVersion : Nat
  bitDepth : Nat
  pb : Nat
  mb : Nat
  kb : Nat
  numChannels : Nat
  maxRun : Nat
  maxFrameBytes : Nat
  avgBitRate : Nat
  sampleRate : Nat
deriving DecidableEq, Repr

/-- go-mp4 marshal of the `Alac` struct: the full-box header then every
field big-endian at its `mp4:"size=..."` width, 28 bytes in total. -/
def alacPayload (p : AlacParams) : List Nat :=
  [p.version % 256, p.flags / 65536 % 256, p.flags / 256 % 256,
   p.flags % 256] ++
  be32 p.frameLength ++
  [p.compatibleVersion % 256, p.bitDepth % 256, p.pb % 256, p.mb % 256,
   p.kb % 256, p.numChannels % 256] ++
  be16 p.maxRun ++ be32 p.maxFrameBytes ++ be32 p.avgBitRate ++
  be32 p.sampleRate

/-- A serialized ISO-BMFF box as written by `w.StartBox`/`w.EndBox`: u32
size (8-byte header plus payload), four-character type, payload. -/
def mp4Box (fourcc : List Nat) (payload : List Nat) : List Nat :=
  be32 (8 + payload.length) ++ fourcc ++ payload

/-- The `alac` fourCC bytes. -/
def alacFourCC : List Nat := utf8Bytes "alac"

/-- The body of the custom alac sample entry, write for write
(song_downloader_impl.go:1410-1460): a 16-byte literal block (6 reserved
zero bytes, big-endian u16 data-reference-index = 1, then 8 reserved zero
bytes), `uint16(NumChannels)` big-endian, `uint16(BitDepth)` big-endian,
2 zero bytes, `SampleRate` as u32 big-endian, 2 zero bytes, then the nested
alac full box with the marshalled `AlacParams`. -/
def alacSampleEntryBody (p : AlacParams) : List Nat :=
  [0, 0, 0, 0, 0, 0, 0, 1, 0, 0, 0, 0, 0, 0, 0, 0] ++
  be16 (p.numChannels % 256) ++ be16 (p.bitDepth % 256) ++ [0, 0] ++
  be32 p.sampleRate ++ [0, 0] ++ mp4Box alacFourCC (alacPayload p)

/-- The stsd entry count marshalled by WriteM4a:
`mp4.Stsd{EntryCount: 1}` (song_downloader_impl.go:1399). -/
def stsdEntryCount : Nat := 1

/-- The stsd payload before the nested sample entry: full-box version and
flags, then the u32 entry count. -/
def stsdPayload : List Nat := [0, 0, 0, 0] ++ be32 stsdEntryCount

/-- The sample-entry body as the claim words it: an 8-byte reserved zero
block, then 16-bit num_channels, 16-bit bit_depth, 16 zero bits, 32-bit
sample_rate, 16 zero bits, then the nested alac full box.  Written from the
spec's words, for comparison with `alacSampleEntryBody`. -/
def claimAlacBody (p : AlacParams) : List Nat :=
  [0, 0, 0, 0, 0, 0, 0, 0] ++
  be16 (p.numChannels % 256) ++ be16 (p.bitDepth % 256) ++ [0, 0] ++
  be32 p.sampleRate ++ [0, 0] ++ mp4Box alacFourCC (alacPayload p)

/-- go-mp4 unmarshal of the `Alac` struct from its 28-byte payload, used to
state that the nested payload is the source's bytes verbatim. -/
def parseAlacPayload : List Nat → Option AlacParams
  | [v, f1, f2, f3, a1, a2, a3, a4, cv, bd, pb, mb, kb, nc, r1, r2,
     x1, x2, x3, x4, y1, y2, y3, y4, s1, s2, s3, s4] =>
    some { version := v, flags := (f1 * 256 + f2) * 256 + f3,
           frameLength := ((a1 * 256 + a2) * 256 + a3) * 256 + a4,
           compatibleVersion := cv, bitDepth := bd, pb := pb, mb := mb,
           kb := kb, numChannels := nc, maxRun := r1 * 256 + r2,
           maxFrameBytes := ((x1 * 256 + x2) * 256 + x3) * 256 + x4,
           avgBitRate := ((y1 * 256 + y2) * 256 + y3) * 256 + y4,
           sampleRate := ((s1 * 256 + s2) * 256 + s3) * 256 + s4 }
  | _ => none

/-- A concrete plausible parameter set (16-bit stereo ALAC at 44.1 kHz). -/
def demoAlacParams : AlacParams :=
  { version := 0, flags := 0, frameLength := 4096, compatibleVersion := 0,
    bitDepth := 16, pb := 40, mb := 10, kb := 14, numChannels := 2,
    maxRun := 255, maxFrameBytes := 0, avgBitRate := 0,
    sampleRate := 44100 }

/-! ## HLS resolver (ExtractMedia, song_downloader_impl.go:524-588) -/

/-- The components of a parsed `net/url.URL` that ExtractMedia touches. -/
structure GoURL where
  scheme : String
  host : String
  path : String
  rawQuery : String
deriving DecidableEq, Repr

/-- One master-playlist variant (grafov/m3u8 `Variant`): its URI and the
attributes ExtractMedia reads. -/
structure Variant where
  uri : String
  averageBandwidth : Nat
  codecs : String
  audio : String
deriving DecidableEq, Repr

/-- The sort of `ExtractMedia` (song_downloader_impl.go:550-552):
`sort.Slice` with `less i j = AverageBandwidth[i] > AverageBandwidth[j]`,
i.e. descending average bandwidth.  Go's slice sort is unstable, so the
order among equal bandwidths is unspecified; the model fixes one sorted
order (insertion sort under the same comparator). -/
def sortByBandwidthDesc (vs : List Variant) : List Variant :=
  List.insertionSort
    (fun a b => b.averageBandwidth ≤ a.averageBandwidth) vs

/-- `strings.HasPrefix` over the character list (kernel-evaluable). -/
def strStartsWith (s pre : String) : Bool := pre.data.isPrefixOf s.data

/-- `strings.HasSuffix` over the character list (kernel-evaluable). -/
def strEndsWith (s suf : String) : Bool := suf.data.isSuffixOf s.data

/-- Drop the first `n` characters (kernel-evaluable). -/
def strDrop (s : String) (n : Nat) : String := ⟨s.data.drop n⟩

/-- Drop the last `n` characters (kernel-evaluable). -/
def strDropRight (s : String) (n : Nat) : String :=
  ⟨s.data.take (s.data.length - n)⟩

/-- Worker for `goSplit`: scan the input, cutting at every occurrence of
the (non-empty) separator; `fuel` bounds the recursion by the input length
so the definition is structural and kernel-evaluable. -/
def splitOnFuel (sep : List Char) : Nat → List Char → List Char →
    List (List Char)
  | _, [], cur => [cur.reverse]
  | 0, cs, cur => [cur.reverse ++ cs]
  | fuel + 1, c :: rest, cur =>
    if sep.isPrefixOf (c :: rest) then
      cur.reverse :: splitOnFuel sep fuel (rest.drop (sep.length - 1)) []
    else splitOnFuel sep fuel rest (c :: cur)

/-- `strings.Split` for a non-empty separator: split around every
(non-overlapping, leftmost) occurrence. -/
def goSplit (s sep : String) : List String :=
  (splitOnFuel sep.data s.data.length s.data []).map (⟨·⟩)

/-- `strconv.Atoi`: optional sign, one or more ASCII digits, 64-bit range
check (out-of-range input is an error, `ErrRange`). -/
def atoi (s : String) : Option Int :=
  match s.data with
  | [] => none
  | c :: rest =>
    let neg := c = '-'
    let ds := if c = '-' ∨ c = '+' then rest else s.data
    if ds = [] ∨ ¬ ds.all Char.isDigit then none
    else
      let v : Nat := ds.foldl (fun acc d => acc * 10 + (d.toNat - 48)) 0
      if (¬ neg ∧ v ≤ 9223372036854775807) ∨
         (neg ∧ v ≤ 9223372036854775808) then
        some (if neg then -(v : Int) else (v : Int))
      else none

/-- `url.Parse` rejects strings holding an ASCII control byte
(`< 0x20` or `0x7f`). -/
def hasCtl (s : String) : Bool :=
  s.data.any (fun c => c.toNat < 0x20 || c.toNat == 0x7f)

/-- Split at the first occurrence of `c`: the part before, and — when `c`
occurs — the part after it. -/
def splitOnFirst (s : String) (c : Char) : String × Option String :=
  let pre : String := ⟨s.data.takeWhile (· ≠ c)⟩
  if pre.length = s.length then (s, none)
  else (pre, some ⟨(s.data.drop (pre.length + 1))⟩)

/-- The directory part of a path: everything up to and including the last
slash (empty when the path has no slash). -/
def dirOf (p : String) : String :=
  let comps := goSplit p "/"
  if comps.length ≤ 1 then ""
  else String.intercalate "/" comps.dropLast ++ "/"

/-- RFC 3986 remove-dot-segments over slash-separated components; a
trailing "." or ".." leaves a trailing slash. -/
def dotSegLoop : List String → List String → List String
  | [], acc => acc.reverse
  | ["."], acc => ("" :: acc).reverse
  | "." :: rest, acc => dotSegLoop rest acc
  | [".."], acc => ("" :: acc.tail).reverse
  | ".." :: rest, acc => dotSegLoop rest acc.tail
  | seg :: rest, acc => dotSegLoop rest (seg :: acc)

/-- remove-dot-segments on a path string. -/
def removeDotSegments (p : String) : String :=
  if strStartsWith p "/" then
    "/" ++ String.intercalate "/" (dotSegLoop (goSplit (strDrop p 1) "/") [])
  else String.intercalate "/" (dotSegLoop (goSplit p "/") [])

/-- Parse an absolute URL of the form `scheme://host[/path][?query]`
(fragment dropped). -/
def parseAbsURL (s : String) : Option GoURL :=
  let beforeHash := (splitOnFirst s '#').1
  let preQ := (splitOnFirst beforeHash '?').1
  let q := ((splitOnFirst beforeHash '?').2).getD ""
  match goSplit preQ "://" with
  | [_] => none
  | [] => none
  | scheme :: rest =>
    let hostPath := String.intercalate "://" rest
    let host := (splitOnFirst hostPath '/').1
    let path := match (splitOnFirst hostPath '/').2 with
      | none => ""
      | some p => "/" ++ p
    some { scheme := scheme, host := host, path := path, rawQuery := q }

/-- `masterUrl.Parse(ref)` — net/url reference resolution for the forms
that occur in HLS playlists: control bytes are a parse error; an absolute
`scheme://` reference replaces the base; an absolute path replaces the
base's path; a relative path is merged against the base path's directory
and dot segments are removed; the reference's query replaces the base's. -/
def resolveReference (base : GoURL) (ref : String) : Option GoURL :=
  if hasCtl ref then none
  else
    let beforeHash := (splitOnFirst ref '#').1
    let prePath := (splitOnFirst beforeHash '?').1
    let q := (splitOnFirst beforeHash '?').2
    if 2 ≤ (goSplit prePath "://").length then parseAbsURL ref
    else if prePath = "" then
      some { base with rawQuery := q.getD base.rawQuery }
    else
      let merged := if strStartsWith prePath "/" then prePath
                    else dirOf base.path ++ prePath
      some { scheme := base.scheme, host := base.host,
             path := removeDotSegments merged, rawQuery := q.getD "" }

/-- `url.URL.String()` for the URLs built here. -/
def urlString (u : GoURL) : String :=
  u.scheme ++ "://" ++ u.host ++ u.path ++
    (if u.rawQuery ≠ "" then "?" ++ u.rawQuery else "")

/-- `strings.TrimSuffix`. -/
def goTrimSuffix (s suf : String) : String :=
  if strEndsWith s suf then strDropRight s suf.length else s

/-- The numeric component at position `len-2` of the dash-split `Audio`
attribute (song_downloader_impl.go:556-558); `none` when the split has
fewer than two components (a Go index panic) or `Atoi` fails. -/
def audioRate (v : Variant) : Option Int :=
  if h : 2 ≤ (goSplit v.audio "-").length then
    atoi ((goSplit v.audio "-").get
      ⟨(goSplit v.audio "-").length - 2, by omega⟩)
  else none

/-- The selection loop of ExtractMedia (song_downloader_impl.go:554-572)
over the sorted variants: skip non-alac variants; for an alac variant parse
the `Audio` rate — a malformed attribute aborts the whole extraction (in Go
a panic when the dash split is too short, an error return when Atoi fails;
both abort, collapsed here into one error); accept the variant when the
rate is ≤ 192000, else keep scanning. -/
def selectVariantLoop : List Variant → Except String Variant
  | [] => .error "no codec found"
  | v :: rest =>
    if v.codecs = "alac" then
      match audioRate v with
      | none => .error "invalid Audio attribute"
      | some n => if n ≤ 192000 then .ok v else selectVariantLoop rest
    else selectVariantLoop rest

/-- Selection predicate as the claim words it: `CODECS == "alac"` and the
numeric component at position `len-2` of the dash-split `Audio` attribute
is ≤ 192000. -/
def isEligible (v : Variant) : Bool :=
  v.codecs = "alac" &&
    match audioRate v with
    | some n => n ≤ 192000
    | none => false

/-- First eligible variant of a (sorted) list. -/
def firstEligible (vs : List Variant) : Option Variant :=
  vs.find? isEligible

/-- The media URL computed by ExtractMedia from the parsed master URL and
its decoded variants (song_downloader_impl.go:549-587): sort by average
bandwidth descending, select, resolve the chosen URI against the master
URL, then rewrite the path by trimming a `.m3u8` suffix and appending
`_m.mp4`. -/
def extractMediaUrl (masterUrl : GoURL) (variants : List Variant) :
    Except String String :=
  match selectVariantLoop (sortByBandwidthDesc variants) with
  | .error e => .error e
  | .ok v =>
    match resolveReference masterUrl v.uri with
    | none => .error "invalid variant uri"
    | some u =>
      .ok (urlString
        { u with path := goTrimSuffix u.path ".m3u8" ++ "_m.mp4" })

/-- A concrete master URL for witnesses. -/
def demoMaster : GoURL :=
  { scheme := "https", host := "ex.com", path := "/a/master.m3u8",
    rawQuery := "" }

/-- Concrete variants mirroring the spec's example: ALAC at 48 kHz,
192 kHz and 384 kHz (bandwidth ordered so 384 kHz sorts first). -/
def demoVariants : List Variant :=
  [{ uri := "v48/s.m3u8", averageBandwidth := 1000, codecs := "alac",
     audio := "audio-alac-2ch-48000-16" },
   { uri := "v384/s.m3u8", averageBandwidth := 3000, codecs := "alac",
     audio := "audio-alac-2ch-384000-24" },
   { uri := "v192/s.m3u8", averageBandwidth := 2000, codecs := "alac",
     audio := "audio-alac-2ch-192000-24" }]

/-! ## URL parser (ExtractURLMeta, src/unnamed/part_009:16-57) -/

/-- `URLMeta` (part_009:9). -/
structure URLMeta where
  storefront : String
  urlType : String
  id : String
deriving DecidableEq, Repr

/-- The `[a-z]` class of the storefront group. -/
def isLowerAZ (c : Char) : Bool := 'a' ≤ c && c ≤ 'z'

/-- The `[0-9a-zA-Z\-.]` class of the id group. -/
def isIdChar (c : Char) : Bool :=
  ('0' ≤ c && c ≤ '9') || ('a' ≤ c && c ≤ 'z') || ('A' ≤ c && c ≤ 'Z') ||
    c = '-' || c = '.'

/-- Strip an exact literal prefix, returning the remainder. -/
def stripLit : List Char → List Char → Option (List Char)
  | [], cs => some cs
  | _, [] => none
  | l :: ls, c :: cs => if c = l then stripLit ls cs else none

/-- The `album|song|playlist` alternation.  The three alternatives start
with distinct characters, so at any position at most one can match and
Go's leftmost-first order never needs to backtrack between them. -/
def matchKind (cs : List Char) : Option (String × List Char) :=
  match stripLit "album".data cs with
  | some r => some ("album", r)
  | none =>
    match stripLit "song".data cs with
    | some r => some ("song", r)
    | none =>
      match stripLit "playlist".data cs with
      | some r => some ("playlist", r)
      | none => none

/-- The `.*/(?P<id>[0-9a-zA-Z\-.]+)` tail with a greedy `.*` (which cannot
cross a newline): the match uses the LAST slash in the newline-free region
that is followed by at least one id character, and the id is the maximal
id-character run after that slash. -/
def lastMatchInRegion : List Char → Option (List Char)
  | [] => none
  | '/' :: rest =>
    match lastMatchInRegion rest with
    | some r => some r
    | none =>
      match rest.takeWhile isIdChar with
      | [] => none
      | cand => some cand
  | _ :: rest => lastMatchInRegion rest

/-- Try the full catalog regex at this exact position:
`https://music\.apple\.com/(?P<storefront>[a-z]{2})/(?P<type>album|song|playlist)/.*/(?P<id>[0-9a-zA-Z\-.]+)`. -/
def matchAt (cs : List Char) : Option (String × String × String) :=
  match stripLit "https://music.apple.com/".data cs with
  | none => none
  | some r1 =>
    match r1 with
    | s1 :: s2 :: '/' :: r2 =>
      if isLowerAZ s1 && isLowerAZ s2 then
        match matchKind r2 with
        | none => none
        | some (kind, r3) =>
          match r3 with
          | '/' :: r4 =>
            match lastMatchInRegion (r4.takeWhile (· ≠ '\n')) with
            | some idChars => some (⟨[s1, s2]⟩, kind, ⟨idChars⟩)
            | none => none
          | _ => none
      else none
    | _ => none

/-- `regexp.FindStringSubmatch`: the match at the leftmost position where
the whole pattern succeeds. -/
def regexFind : List Char → Option (String × String × String)
  | [] => none
  | c :: rest =>
    match matchAt (c :: rest) with
    | some m => some m
    | none => regexFind rest

/-- Hex digit value for percent-decoding. -/
def hexVal (c : Char) : Option Nat :=
  if '0' ≤ c ∧ c ≤ '9' then some (c.toNat - 48)
  else if 'a' ≤ c ∧ c ≤ 'f' then some (c.toNat - 87)
  else if 'A' ≤ c ∧ c ≤ 'F' then some (c.toNat - 55)
  else none

/-- `url.QueryUnescape`: `%HH` decodes to the byte value, `+` to a space,
a malformed escape is an error.  Decoded bytes are modelled as characters
of the byte's code point (ASCII inputs are exact). -/
def unescapeQuery : List Char → Option (List Char)
  | [] => some []
  | '%' :: a :: b :: rest =>
    match hexVal a, hexVal b with
    | some ha, some hb =>
      match unescapeQuery rest with
      | some r => some (Char.ofNat (ha * 16 + hb) :: r)
      | none => none
    | _, _ => none
  | '%' :: _ => none
  | '+' :: rest => (unescapeQuery rest).map (fun r => ' ' :: r)
  | c :: rest => (unescapeQuery rest).map (fun r => c :: r)

/-- `url.ParseQuery` as consumed through `Values.Get`: split the raw query
on `&`; a pair containing `;` is skipped, an empty pair is skipped; the key
is cut at the first `=`; a pair whose key or value fails to unescape is
skipped. -/
def querySplitPairs (q : String) : List (String × String) :=
  (goSplit q "&").filterMap fun pair =>
    if pair.data.contains ';' then none
    else if pair = "" then none
    else
      match unescapeQuery (splitOnFirst pair '=').1.data,
          unescapeQuery (((splitOnFirst pair '=').2).getD "").data with
      | some kk, some vv => some (⟨kk⟩, ⟨vv⟩)
      | _, _ => none

/-- `url.Parse(inputURL)` followed by `.Query().Get(key)`
(part_009:40-43): `none` models a parse error (modelled as the presence of
an ASCII control byte, net/url's primary rejection; other rare stdlib
failure modes are not modelled); otherwise the first value bound to the
key, or the empty string. -/
def goQueryGet (s : String) (key : String) : Option String :=
  if hasCtl s then none
  else
    match (splitOnFirst ((splitOnFirst s '#').1) '?').2 with
    | none => some ""
    | some q =>
      some ((((querySplitPairs q).find? (fun p => p.1 = key)).map
        Prod.snd).getD "")

/-- `ExtractURLMeta` (part_009:16-57): match the catalog regex; on an
`album` URL whose parsed query has a non-empty `i`, override the kind to
`song` and the id to `i`'s value; pluralize the kind. -/
def ExtractURLMeta (inputURL : String) : Option URLMeta :=
  match regexFind inputURL.data with
  | none => none
  | some (storefront, urlType, id) =>
    let pair :=
      if urlType = "album" then
        match goQueryGet inputURL "i" with
        | some songID => if songID ≠ "" then ("song", songID) else (urlType, id)
        | none => (urlType, id)
      else (urlType, id)
    some { storefront := storefront, urlType := pair.1 ++ "s", id := pair.2 }

end AlacBot

namespace AlacBot

/-! ## Theorems: queue, tracker, helper response -/

theorem processQueueDrain_fst (outcome : QueueRequest → Bool) :
    ∀ q : List QueueRequest, (processQueueDrain outcome q).map Prod.fst = q := by
  intro q
  induction q with
  | nil => rfl
  | cons r rest ih => simp [processQueueDrain, ih]

/-- Claim C7: a manifest-helper response that trims to an empty payload makes
the enhanced-HLS step fail with a `network_failure` `DownloadError` (no URL is
returned), and the queue drain marks such a failed job and still processes
every remaining job in order. -/
theorem c7_empty_helper_response_fails (raw : String)
    (h : goTrimSpace raw = "") :
    getEnhanceHlsStep raw =
      .error { etype := .networkFailure,
               message := "failed to get enhanced HLS URL",
               cause := "received empty response from device" } ∧
    (∀ (outcome : QueueRequest → Bool) (r : QueueRequest)
        (rest : List QueueRequest), outcome r = false →
      processQueueDrain outcome (r :: rest) =
        (r, QueueStatus.failed) :: processQueueDrain outcome rest ∧
      (processQueueDrain outcome (r :: rest)).map Prod.fst = r :: rest) := by
  constructor
  · simp [getEnhanceHlsStep, processDeviceResponse, h]
  · intro outcome r rest hout
    refine ⟨?_, processQueueDrain_fst outcome (r :: rest)⟩
    simp [processQueueDrain, hout]

/-- Witness for C7 at the concrete response `"\n"`. -/
theorem c7_witness :
    getEnhanceHlsStep "\n" =
      .error { etype := .networkFailure,
               message := "failed to get enhanced HLS URL",
               cause := "received empty response from device" } :=
  (c7_empty_helper_response_fails "\n" (by decide)).1

/-- Claim C8: `AddRequest` rejects with exactly
`"queue is full (max 7 requests)"` when the pending queue holds 7 requests;
rejects with exactly `"request with ID <key> already exists"` when the key is
already pending; and otherwise appends the new request at the tail with
status queued. -/
theorem c8_add_request_cases (st : SongQueueState) (senderID chatID : Int)
    (messageID : Int) (url : String) :
    (st.queue.length ≥ 7 →
      AddRequest st senderID chatID messageID url =
        .error "queue is full (max 7 requests)") ∧
    (st.queue.length < 7 →
      ∀ r ∈ st.queue, r.uniqueID = GenerateUniqueID senderID chatID messageID →
      AddRequest st senderID chatID messageID url =
        .error ("request with ID " ++ GenerateUniqueID senderID chatID messageID
                ++ " already exists")) ∧
    (st.queue.length < 7 →
      (∀ r ∈ st.queue, r.uniqueID ≠ GenerateUniqueID senderID chatID messageID) →
      AddRequest st senderID chatID messageID url =
        .ok ({ st with queue := st.queue ++
                 [{ uniqueID := GenerateUniqueID senderID chatID messageID,
                    senderID := senderID, chatID := chatID,
                    messageID := messageID, url := url,
                    status := .queued }] },
             { uniqueID := GenerateUniqueID senderID chatID messageID,
               senderID := senderID, chatID := chatID,
               messageID := messageID, url := url,
               status := .queued })) := by
  refine ⟨?_, ?_, ?_⟩
  · intro hfull
    simp only [AddRequest, MaxQueueSize]
    rw [if_pos hfull]
    rfl
  · intro hlen r hr hid
    simp only [AddRequest, MaxQueueSize]
    rw [if_neg (by omega)]
    have hfind : (findRequestByID st.queue
        (GenerateUniqueID senderID chatID messageID)).isSome := by
      simp only [findRequestByID, List.find?_isSome]
      exact ⟨r, hr, by simp [hid]⟩
    rcases Option.isSome_iff_exists.mp hfind with ⟨r', hr'⟩
    rw [hr']
    rfl
  · intro hlen hnone
    simp only [AddRequest, MaxQueueSize]
    rw [if_neg (by omega)]
    have hfind : findRequestByID st.queue
        (GenerateUniqueID senderID chatID messageID) = none := by
      simp only [findRequestByID, List.find?_eq_none]
      intro r hr
      simpa using hnone r hr
    rw [hfind]

/-- Witness for C8: the full-queue rejection, the duplicate rejection, and a
successful admission, each at concrete states. -/
theorem c8_witness :
    (AddRequest { queue := List.replicate 7 demoRequest, processing := none }
        1 2 3 "u" =
      .error "queue is full (max 7 requests)") ∧
    (AddRequest { queue := [demoRequest123], processing := none } 1 2 3 "v" =
      .error "request with ID 1:2:3 already exists") ∧
    (AddRequest { queue := [], processing := none } 1 2 3 "u" =
      .ok ({ queue := [demoRequest123], processing := none },
           demoRequest123)) := by
  refine ⟨?_, ?_, ?_⟩
  · exact (c8_add_request_cases _ 1 2 3 "u").1 (by decide)
  · exact (c8_add_request_cases _ 1 2 3 "v").2.1 (by decide) demoRequest123
      (by simp) (by decide)
  · exact (c8_add_request_cases _ 1 2 3 "u").2.2 (by decide) (by simp)

/-- Claim C9 counterexample: with the capacity-10 channel full, the
non-blocking send of `UpdateProgress` leaves the buffer unchanged — the
newly submitted update is NOT retained (the claimed drop-oldest policy would
retain it). -/
theorem c9_counterexample :
    let old : ProgressUpdate := { phase := 0, bytesProcessed := 0, totalBytes := 1 }
    let fresh : ProgressUpdate := { phase := 1, bytesProcessed := 1, totalBytes := 1 }
    updateProgressSend (List.replicate 10 old) fresh = List.replicate 10 old ∧
    fresh ∉ updateProgressSend (List.replicate 10 old) fresh ∧
    updateProgressSend (List.replicate 10 old) fresh ≠
      specDropOldestSend (List.replicate 10 old) fresh := by
  refine ⟨by decide, by decide, by decide⟩

/-- Claim C9 (amended): the send never blocks and never overflows capacity 10;
while the channel has room the update is appended (retained); when the channel
is full the NEWLY submitted update is dropped and the buffer is unchanged. -/
theorem c9_overflow_drops_newest (buffer : List ProgressUpdate)
    (u : ProgressUpdate) (hcap : buffer.length ≤ 10) :
    (updateProgressSend buffer u).length ≤ 10 ∧
    (buffer.length < 10 → updateProgressSend buffer u = buffer ++ [u]) ∧
    (buffer.length = 10 → updateProgressSend buffer u = buffer) := by
  refine ⟨?_, ?_, ?_⟩
  · by_cases h : buffer.length < 10
    · simp [updateProgressSend, updateChanCapacity, h]
      omega
    · simp [updateProgressSend, updateChanCapacity, h]
      omega
  · intro h
    simp [updateProgressSend, updateChanCapacity, h]
  · intro h
    simp [updateProgressSend, updateChanCapacity, h]

/-- Witness for C9 (amended) at a concrete singleton buffer. -/
theorem c9_witness :
    let u0 : ProgressUpdate := { phase := 0, bytesProcessed := 0, totalBytes := 1 }
    let u1 : ProgressUpdate := { phase := 1, bytesProcessed := 1, totalBytes := 1 }
    updateProgressSend [u0] u1 = [u0, u1] :=
  (c9_overflow_drops_newest _ _ (by decide)).2.1 (by decide)

/-- Claim C10: duplicate detection consults only the pending list.  Once the
drain loop has taken the request with key `k` out of the pending queue (it is
now in the `processing` slot), `AddRequest` accepts a new request with the
same key `k`. -/
theorem c10_duplicate_only_pending (st : SongQueueState) (head : QueueRequest)
    (st' : SongQueueState) (senderID chatID : Int) (messageID : Int)
    (url : String)
    (htake : takeNext st = some (head, st'))
    (_hkey : head.uniqueID = GenerateUniqueID senderID chatID messageID)
    (hrest : ∀ r ∈ st'.queue,
      r.uniqueID ≠ GenerateUniqueID senderID chatID messageID)
    (hlen : st'.queue.length < 7) :
    st'.processing = some head ∧
    AddRequest st' senderID chatID messageID url =
      .ok ({ st' with queue := st'.queue ++
               [{ uniqueID := GenerateUniqueID senderID chatID messageID,
                  senderID := senderID, chatID := chatID,
                  messageID := messageID, url := url,
                  status := .queued }] },
           { uniqueID := GenerateUniqueID senderID chatID messageID,
             senderID := senderID, chatID := chatID,
             messageID := messageID, url := url, status := .queued }) := by
  have hproc : st'.processing = some head := by
    cases hq : st.queue with
    | nil => simp [takeNext, hq] at htake
    | cons a rest =>
      simp [takeNext, hq] at htake
      rcases htake with ⟨ha, hst'⟩
      rw [← hst']
      simp [ha]
  exact ⟨hproc, (c8_add_request_cases st' senderID chatID messageID url).2.2
    hlen hrest⟩

theorem consumeEntries_ok (trunFlags : Nat) (tfhd : Tfhd) (trex : Trex)
    (d : Nat) :
    ∀ (entries : List TrunEntry) (mdat : List Nat),
    (entries.map (chosenSize trunFlags tfhd trex)).sum ≤ mdat.length →
    ∃ ss, consumeEntries trunFlags tfhd trex d entries mdat =
        .ok (ss, mdat.drop (entries.map (chosenSize trunFlags tfhd trex)).sum) ∧
      ss.map SampleInfo.duration =
        entries.map (chosenDuration trunFlags tfhd trex) ∧
      ss.map SampleInfo.data =
        splitSizes mdat (entries.map (chosenSize trunFlags tfhd trex)) ∧
      ss.map SampleInfo.descIndex = List.replicate entries.length d := by
  intro entries
  induction entries with
  | nil =>
    intro mdat _
    exact ⟨[], by simp [consumeEntries, splitSizes]⟩
  | cons en rest ih =>
    intro mdat h
    simp only [List.map_cons, List.sum_cons] at h
    have hsz : chosenSize trunFlags tfhd trex en ≤ mdat.length := by omega
    have hrest : (rest.map (chosenSize trunFlags tfhd trex)).sum ≤
        (mdat.drop (chosenSize trunFlags tfhd trex en)).length := by
      rw [List.length_drop]; omega
    obtain ⟨ss, heq, hdur, hdata, hdesc⟩ := ih _ hrest
    refine ⟨{ data := mdat.take (chosenSize trunFlags tfhd trex en),
              duration := chosenDuration trunFlags tfhd trex en,
              descIndex := d } :: ss, ?_, ?_, ?_, ?_⟩
    · simp only [consumeEntries, if_pos hsz, heq, List.drop_drop]
      simp [List.map_cons, List.sum_cons, Nat.add_comm]
    · simp [hdur]
    · simp [splitSizes, hdata]
    · simp [hdesc, List.replicate_succ]

theorem consumeEntries_panic (trunFlags : Nat) (tfhd : Tfhd) (trex : Trex)
    (d : Nat) :
    ∀ (entries : List TrunEntry) (mdat : List Nat),
    mdat.length < (entries.map (chosenSize trunFlags tfhd trex)).sum →
    consumeEntries trunFlags tfhd trex d entries mdat =
      .error "panic: slice bounds out of range" := by
  intro entries
  induction entries with
  | nil => intro mdat h; simp at h
  | cons en rest ih =>
    intro mdat h
    simp only [List.map_cons, List.sum_cons] at h
    by_cases hsz : chosenSize trunFlags tfhd trex en ≤ mdat.length
    · have : (mdat.drop (chosenSize trunFlags tfhd trex en)).length <
          (rest.map (chosenSize trunFlags tfhd trex)).sum := by
        rw [List.length_drop]; omega
      simp [consumeEntries, if_pos hsz, ih _ this]
    · simp [consumeEntries, if_neg hsz]

theorem splitSizes_append (a b : List Nat) :
    ∀ mdat : List Nat, splitSizes mdat (a ++ b) =
      splitSizes mdat a ++ splitSizes (mdat.drop a.sum) b := by
  induction a with
  | nil => intro mdat; simp [splitSizes]
  | cons s rest ih =>
    intro mdat
    simp [splitSizes, ih, List.drop_drop, Nat.add_comm]

theorem consumeTruns_cons_ok (tfhd : Tfhd) (trex : Trex) (d : Nat) (t : Trun)
    (ts : List Trun) (mdat : List Nat) (ss : List SampleInfo) (rem : List Nat)
    (h : consumeEntries t.flags tfhd trex d t.entries mdat = .ok (ss, rem)) :
    consumeTruns tfhd trex d (t :: ts) mdat =
      match consumeTruns tfhd trex d ts rem with
      | .ok (ss2, rem2) => .ok (ss ++ ss2, rem2)
      | .error e => .error e := by
  rw [consumeTruns, h]

theorem consumeTruns_cons_err (tfhd : Tfhd) (trex : Trex) (d : Nat) (t : Trun)
    (ts : List Trun) (mdat : List Nat) (e : String)
    (h : consumeEntries t.flags tfhd trex d t.entries mdat = .error e) :
    consumeTruns tfhd trex d (t :: ts) mdat = .error e := by
  rw [consumeTruns, h]

theorem consumeTruns_ok (tfhd : Tfhd) (trex : Trex) (d : Nat) :
    ∀ (truns : List Trun) (mdat : List Nat),
    (moofSizes tfhd trex truns).sum ≤ mdat.length →
    ∃ ss, consumeTruns tfhd trex d truns mdat =
        .ok (ss, mdat.drop (moofSizes tfhd trex truns).sum) ∧
      ss.map SampleInfo.duration = moofDurations tfhd trex truns ∧
      ss.map SampleInfo.data = splitSizes mdat (moofSizes tfhd trex truns) ∧
      ss.map SampleInfo.descIndex =
        List.replicate (moofSizes tfhd trex truns).length d := by
  intro truns
  induction truns with
  | nil =>
    intro mdat _
    exact ⟨[], by simp [consumeTruns, moofSizes, moofDurations, splitSizes]⟩
  | cons t ts ih =>
    intro mdat h
    have hsplit : (moofSizes tfhd trex (t :: ts)).sum =
        (t.entries.map (chosenSize t.flags tfhd trex)).sum +
          (moofSizes tfhd trex ts).sum := by
      simp [moofSizes]
    rw [hsplit] at h
    have h1 : (t.entries.map (chosenSize t.flags tfhd trex)).sum ≤
        mdat.length := by omega
    obtain ⟨ss1, heq1, hdur1, hdata1, hdesc1⟩ :=
      consumeEntries_ok t.flags tfhd trex d t.entries mdat h1
    have h2 : (moofSizes tfhd trex ts).sum ≤
        (mdat.drop (t.entries.map (chosenSize t.flags tfhd trex)).sum).length := by
      rw [List.length_drop]; omega
    obtain ⟨ss2, heq2, hdur2, hdata2, hdesc2⟩ := ih _ h2
    refine ⟨ss1 ++ ss2, ?_, ?_, ?_, ?_⟩
    · rw [consumeTruns_cons_ok tfhd trex d t ts mdat ss1 _ heq1, heq2,
        List.drop_drop, hsplit, Nat.add_comm]
    · have hdcat : moofDurations tfhd trex (t :: ts) =
          t.entries.map (chosenDuration t.flags tfhd trex) ++
            moofDurations tfhd trex ts := by
        simp [moofDurations]
      rw [List.map_append, hdur1, hdur2, hdcat]
    · have hcat : moofSizes tfhd trex (t :: ts) =
          t.entries.map (chosenSize t.flags tfhd trex) ++ moofSizes tfhd trex ts := by
        simp [moofSizes]
      rw [hcat, splitSizes_append, List.map_append, hdata1, hdata2]
    · have hlcat : (moofSizes tfhd trex (t :: ts)).length =
          t.entries.length + (moofSizes tfhd trex ts).length := by
        simp [moofSizes]
      rw [List.map_append, hdesc1, hdesc2, hlcat, List.replicate_add]

theorem consumeTruns_panic (tfhd : Tfhd) (trex : Trex) (d : Nat) :
    ∀ (truns : List Trun) (mdat : List Nat),
    mdat.length < (moofSizes tfhd trex truns).sum →
    consumeTruns tfhd trex d truns mdat =
      .error "panic: slice bounds out of range" := by
  intro truns
  induction truns with
  | nil => intro mdat h; simp [moofSizes] at h
  | cons t ts ih =>
    intro mdat h
    have hsplit : (moofSizes tfhd trex (t :: ts)).sum =
        (t.entries.map (chosenSize t.flags tfhd trex)).sum +
          (moofSizes tfhd trex ts).sum := by
      simp [moofSizes]
    rw [hsplit] at h
    by_cases h1 : (t.entries.map (chosenSize t.flags tfhd trex)).sum ≤
        mdat.length
    · obtain ⟨ss1, heq1, _, _, _⟩ :=
        consumeEntries_ok t.flags tfhd trex d t.entries mdat h1
      have h2 : (mdat.drop
          (t.entries.map (chosenSize t.flags tfhd trex)).sum).length <
          (moofSizes tfhd trex ts).sum := by
        rw [List.length_drop]; omega
      have hrec := ih (mdat.drop
        (t.entries.map (chosenSize t.flags tfhd trex)).sum) h2
      rw [consumeTruns_cons_ok tfhd trex d t ts mdat ss1 _ heq1, hrec]
    · rw [consumeTruns_cons_err tfhd trex d t ts mdat _
        (consumeEntries_panic t.flags tfhd trex d t.entries mdat (by omega))]

/-- Claim C2: in extractSong's per-moof consumption, entry sizes and
durations follow the trun 0x200 / tfhd 0x10 / trex (resp. trun 0x100 /
tfhd 0x08 / trex) precedence, and the processing fails with exactly
"offset mismatch" iff after consuming every trun entry the paired mdat
payload is not exactly empty. -/
theorem c2_extract_song_consumption (trex : Trex) (tfhd : Tfhd)
    (truns : List Trun) (mdat : List Nat) :
    (processMoof trex tfhd truns mdat = .error "offset mismatch" ↔
      (moofSizes tfhd trex truns).sum < mdat.length) ∧
    ((moofSizes tfhd trex truns).sum = mdat.length →
      ∃ ss, processMoof trex tfhd truns mdat = .ok ss ∧
        ss.map SampleInfo.duration = moofDurations tfhd trex truns ∧
        ss.map SampleInfo.data = splitSizes mdat (moofSizes tfhd trex truns) ∧
        ss.map SampleInfo.descIndex =
          List.replicate (moofSizes tfhd trex truns).length
            (tfhdDescIndex tfhd)) := by
  constructor
  · constructor
    · intro herr
      by_contra hnot
      rcases Nat.lt_or_ge mdat.length (moofSizes tfhd trex truns).sum with hlt | hge
      · rw [processMoof,
          consumeTruns_panic tfhd trex (tfhdDescIndex tfhd) truns mdat hlt]
          at herr
        simp at herr
      · obtain ⟨ss, heq, _, _, _⟩ :=
          consumeTruns_ok tfhd trex (tfhdDescIndex tfhd) truns mdat hge
        rw [processMoof, heq] at herr
        have hdroplen : (mdat.drop (moofSizes tfhd trex truns).sum).length = 0 := by
          rw [List.length_drop]; omega
        simp [hdroplen] at herr
    · intro hlt
      obtain ⟨ss, heq, _, _, _⟩ :=
        consumeTruns_ok tfhd trex (tfhdDescIndex tfhd) truns mdat (le_of_lt hlt)
      rw [processMoof, heq]
      have hne : (mdat.drop (moofSizes tfhd trex truns).sum).length ≠ 0 := by
        rw [List.length_drop]; omega
      simp [hne]
      omega
  · intro hsum
    obtain ⟨ss, heq, hdur, hdata, hdesc⟩ :=
      consumeTruns_ok tfhd trex (tfhdDescIndex tfhd) truns mdat (le_of_eq hsum)
    refine ⟨ss, ?_, hdur, hdata, hdesc⟩
    rw [processMoof, heq]
    have hz : (mdat.drop (moofSizes tfhd trex truns).sum).length = 0 := by
      rw [List.length_drop]; omega
    simp [hz]

/-- Witness for C2: a moof with one trun (flags 0x300, per-entry sizes 2 and
3) against a 5-byte mdat payload consumes it exactly and yields the
per-entry sizes and durations. -/
theorem c2_witness :
    ∃ ss, processMoof ⟨10, 4⟩ ⟨0, 1, 0, 0⟩
        [⟨0x300, [⟨7, 2⟩, ⟨9, 3⟩]⟩] [1, 2, 3, 4, 5] = .ok ss ∧
      ss.map SampleInfo.duration =
        moofDurations ⟨0, 1, 0, 0⟩ ⟨10, 4⟩ [⟨0x300, [⟨7, 2⟩, ⟨9, 3⟩]⟩] ∧
      ss.map SampleInfo.data =
        splitSizes [1, 2, 3, 4, 5]
          (moofSizes ⟨0, 1, 0, 0⟩ ⟨10, 4⟩ [⟨0x300, [⟨7, 2⟩, ⟨9, 3⟩]⟩]) ∧
      ss.map SampleInfo.descIndex =
        List.replicate
          (moofSizes ⟨0, 1, 0, 0⟩ ⟨10, 4⟩ [⟨0x300, [⟨7, 2⟩, ⟨9, 3⟩]⟩]).length
          (tfhdDescIndex ⟨0, 1, 0, 0⟩) :=
  (c2_extract_song_consumption ⟨10, 4⟩ ⟨0, 1, 0, 0⟩
    [⟨0x300, [⟨7, 2⟩, ⟨9, 3⟩]⟩] [1, 2, 3, 4, 5]).2 (by decide)

/-- Claim C3 counterexample: when the first descriptor group consists of a
single zero-length sample, decryptSong writes NO four-zero-byte boundary
marker before the second group header (its condition is
`len(decrypted) != 0`, and no plaintext has accumulated), while the claim —
marker before every group header except the first, i.e. once any samples
have been processed — demands one. -/
theorem c3_counterexample :
    decryptSongWrites "1" [prefetchKey, "k"]
        [{ data := [], duration := 1, descIndex := 0 },
         { data := [7], duration := 1, descIndex := 1 }] ≠
      specStreamClaim "1" [prefetchKey, "k"]
        [{ data := [], duration := 1, descIndex := 0 },
         { data := [7], duration := 1, descIndex := 1 }] := by
  decide

theorem c3_stream_aux (songId : String) (keys : List String) :
    ∀ (samples : List SampleInfo), (∀ s ∈ samples, s.descIndex ≠ 255) →
    ∀ (lastIndex : Nat) (cur : Option Nat),
    ((lastIndex = 255 ∧ cur = none) ∨ cur = some lastIndex) →
    ∀ doneBytes : Nat,
    decryptWritesGo songId keys samples lastIndex doneBytes =
      amendedStreamGo songId keys samples cur doneBytes := by
  intro samples
  induction samples with
  | nil => intro _ lastIndex cur _ doneBytes; rfl
  | cons sp rest ih =>
    intro h255 lastIndex cur hrel doneBytes
    have hd : sp.descIndex ≠ 255 := h255 sp (List.mem_cons_self sp rest)
    have hrest : ∀ s ∈ rest, s.descIndex ≠ 255 := by
      intro s hs; exact h255 s (List.mem_cons_of_mem sp hs)
    have hrec := ih hrest sp.descIndex (some sp.descIndex) (Or.inr rfl)
      (doneBytes + sp.data.length)
    rcases hrel with ⟨hl, hc⟩ | hc
    · subst hl hc
      have h1 : (255 : Nat) ≠ sp.descIndex := fun h => hd h.symm
      have h2 : (none : Option Nat) ≠ some sp.descIndex := by simp
      rw [decryptWritesGo, amendedStreamGo, hrec, if_pos h1, if_pos h2]
    · subst hc
      by_cases hEq : lastIndex = sp.descIndex
      · subst hEq
        have h1 : ¬(sp.descIndex ≠ sp.descIndex) := by simp
        have h2 : ¬(some sp.descIndex ≠ some sp.descIndex) := by simp
        rw [decryptWritesGo, amendedStreamGo, hrec, if_neg h1, if_neg h2]
      · have h2 : some lastIndex ≠ some sp.descIndex := by simpa using hEq
        rw [decryptWritesGo, amendedStreamGo, hrec, if_pos hEq, if_pos h2]

/-- Claim C3 (amended): the byte stream decryptSong writes is, in order:
for every maximal run of samples sharing a descriptor index, a group header
`u8 len(id) ‖ id ‖ u8 len(key) ‖ key` (with `id = "0"` exactly when the key
is the prefetch key constant, else the song id), preceded by a four-zero-
byte boundary marker exactly when some earlier sample had a non-empty
payload; per sample a little-endian u32 ciphertext length then the
ciphertext; and after the last sample a five-zero-byte termination marker.
The hypothesis excludes descriptor index 255, the `lastIndex` sentinel. -/
theorem c3_decrypt_stream (songId : String) (keys : List String)
    (samples : List SampleInfo) (h255 : ∀ s ∈ samples, s.descIndex ≠ 255) :
    decryptSongWrites songId keys samples =
      specStreamAmended songId keys samples :=
  c3_stream_aux songId keys samples h255 255 none (Or.inl ⟨rfl, rfl⟩) 0

/-- Witness for C3 (amended) at a concrete two-group sample list. -/
theorem c3_witness :
    decryptSongWrites "42" [prefetchKey, "k"]
        [{ data := [1], duration := 1, descIndex := 0 },
         { data := [2, 3], duration := 1, descIndex := 1 }] =
      specStreamAmended "42" [prefetchKey, "k"]
        [{ data := [1], duration := 1, descIndex := 0 },
         { data := [2, 3], duration := 1, descIndex := 1 }] :=
  c3_decrypt_stream "42" [prefetchKey, "k"]
    [{ data := [1], duration := 1, descIndex := 0 },
     { data := [2, 3], duration := 1, descIndex := 1 }] (by decide)

theorem stcoGo_shift : ∀ (sizes : List Nat) (i off : Nat),
    stcoGo sizes (i + 5) off = stcoGo sizes i off := by
  intro sizes
  induction sizes with
  | nil => intros; rfl
  | cons sz rest ih =>
    intro i off
    rw [stcoGo, stcoGo, Nat.add_mod_right,
      show i + 5 + 1 = i + 1 + 5 by omega, ih]

theorem stcoGo_chunk (sz : Nat) (rest : List Nat) (off : Nat) :
    stcoGo (sz :: rest) 0 off =
      (off % 4294967296) ::
        stcoGo ((sz :: rest).drop 5) 0 (off + ((sz :: rest).take 5).sum) := by
  rcases rest with _ | ⟨b, _ | ⟨c, _ | ⟨d, _ | ⟨e, rest'⟩⟩⟩⟩
  · simp [stcoGo]
  · simp [stcoGo]
  · simp [stcoGo]
  · simp [stcoGo]
  · simp [stcoGo, Nat.add_assoc]
    simpa using stcoGo_shift rest' 0 (off + (sz + (b + (c + (d + e)))))

theorem stcoGo_length : ∀ (n : Nat) (sizes : List Nat), sizes.length = n →
    ∀ off, (stcoGo sizes 0 off).length = (n + 4) / 5 := by
  intro n
  induction n using Nat.strong_induction_on with
  | _ n ih =>
    intro sizes hlen off
    match sizes with
    | [] =>
      have hn : n = 0 := by simpa using hlen.symm
      subst hn
      simp [stcoGo]
    | sz :: rest =>
      have hlen' : rest.length + 1 = n := by simpa using hlen
      rw [stcoGo_chunk, List.length_cons]
      have hdl : ((sz :: rest).drop 5).length = rest.length + 1 - 5 := by
        rw [List.length_drop]; simp
      have hlt : ((sz :: rest).drop 5).length < n := by omega
      rw [ih _ hlt ((sz :: rest).drop 5) rfl, hdl]
      omega

theorem stcoGo_entry : ∀ (k : Nat) (sizes : List Nat) (off : Nat),
    k < (stcoGo sizes 0 off).length →
    (stcoGo sizes 0 off).getD k 0 =
      (off + (sizes.take (5 * k)).sum) % 4294967296 := by
  intro k
  induction k with
  | zero =>
    intro sizes off hk
    match sizes with
    | [] => simp [stcoGo] at hk
    | sz :: rest => rw [stcoGo_chunk]; simp
  | succ k ih =>
    intro sizes off hk
    match sizes with
    | [] => simp [stcoGo] at hk
    | sz :: rest =>
      rw [stcoGo_chunk] at hk ⊢
      rw [List.getD_cons_succ]
      rw [List.length_cons] at hk
      rw [ih _ _ (by omega)]
      have htake : (sz :: rest).take (5 * (k + 1)) =
          (sz :: rest).take 5 ++ ((sz :: rest).drop 5).take (5 * k) := by
        rw [show 5 * (k + 1) = 5 + 5 * k by omega, List.take_add]
      rw [htake, List.sum_append, Nat.add_assoc]

/-- Claim C4: the patched stco table written by WriteM4a has exactly
⌈n/5⌉ entries (the same count as the initially written all-zero table), and
when the offsets fit in 32 bits its k-th entry is
`mdat.offset + mdat.header_size` plus the total byte length of samples
`0 .. 5k-1`. -/
theorem c4_stco_entries (sizes : List Nat) (mdatOffset headerSize : Nat) :
    (stcoPatch sizes mdatOffset headerSize).length =
      stcoInitialCount sizes.length ∧
    (stcoPatch sizes mdatOffset headerSize).length = (sizes.length + 4) / 5 ∧
    (mdatOffset + headerSize + sizes.sum < 4294967296 →
      ∀ k, k < (stcoPatch sizes mdatOffset headerSize).length →
      (stcoPatch sizes mdatOffset headerSize).getD k 0 =
        mdatOffset + headerSize + (sizes.take (5 * k)).sum) := by
  have hlen := stcoGo_length sizes.length sizes rfl (mdatOffset + headerSize)
  refine ⟨?_, hlen, ?_⟩
  · rw [stcoPatch, hlen, stcoInitialCount]
    omega
  · intro hfit k hk
    rw [stcoPatch, stcoGo_entry k sizes (mdatOffset + headerSize) hk]
    have hle : (sizes.take (5 * k)).sum ≤ sizes.sum := by
      conv_rhs => rw [← List.take_append_drop (5 * k) sizes]
      rw [List.sum_append]
      omega
    exact Nat.mod_eq_of_lt (by omega)

/-- Witness for C4 at seven one-byte samples: two chunk offsets, at base and
base + 5. -/
theorem c4_witness :
    (stcoPatch [1, 1, 1, 1, 1, 1, 1] 100 8).length = stcoInitialCount 7 ∧
    (stcoPatch [1, 1, 1, 1, 1, 1, 1] 100 8).getD 0 0 = 108 ∧
    (stcoPatch [1, 1, 1, 1, 1, 1, 1] 100 8).getD 1 0 = 113 := by
  have h := c4_stco_entries [1, 1, 1, 1, 1, 1, 1] 100 8
  refine ⟨h.1, ?_, ?_⟩
  · have := h.2.2 (by decide) 0 (by decide)
    simpa using this
  · have := h.2.2 (by decide) 1 (by decide)
    simpa using this

/-- Claim C5 counterexample: the body of the alac sample entry does NOT
start with an 8-byte reserved zero block followed by num_channels — the
code first writes a 16-byte block whose 8th byte is 1 (the sample-entry's
data-reference-index), and only then the 8-byte zero block. -/
theorem c5_counterexample :
    alacSampleEntryBody demoAlacParams ≠ claimAlacBody demoAlacParams := by
  decide

/-- Claim C5 (amended): the stsd written by WriteM4a declares exactly one
entry, and the alac sample-entry body is: 6 reserved zero bytes and a
big-endian u16 data-reference-index of 1, THEN the 8-byte reserved zero
block, 16-bit num_channels (big-endian), 16-bit bit_depth (big-endian),
16 zero bits, 32-bit sample_rate (big-endian), 16 zero bits, and a nested
alac full box whose payload is the source `AlacParams` bytes verbatim
(unmarshal of a 28-byte payload followed by marshal reproduces the bytes). -/
theorem c5_stsd_alac_layout (p : AlacParams) :
    stsdPayload = [0, 0, 0, 0] ++ be32 1 ∧
    stsdEntryCount = 1 ∧
    alacSampleEntryBody p =
      ([0, 0, 0, 0, 0, 0] ++ be16 1) ++ claimAlacBody p ∧
    (∀ bs, parseAlacPayload bs = some p → (∀ b ∈ bs, b < 256) →
      alacPayload p = bs) := by
  refine ⟨rfl, rfl, ?_, ?_⟩
  · simp [alacSampleEntryBody, claimAlacBody, be16]
  · intro bs hparse hb
    unfold parseAlacPayload at hparse
    split at hparse
    · rw [Option.some.injEq] at hparse
      subst hparse
      simp only [List.mem_cons, List.not_mem_nil, or_false, forall_eq_or_imp,
        forall_eq] at hb
      simp only [alacPayload, be16, be32, List.cons_append, List.nil_append,
        List.cons.injEq, and_true]
      omega
    · exact absurd hparse (by simp)

/-- Witness for C5 (amended) at the concrete demo parameters, including the
roundtrip on the marshalled payload itself. -/
theorem c5_witness :
    alacSampleEntryBody demoAlacParams =
      ([0, 0, 0, 0, 0, 0] ++ be16 1) ++ claimAlacBody demoAlacParams ∧
    alacPayload demoAlacParams = alacPayload demoAlacParams := by
  refine ⟨(c5_stsd_alac_layout demoAlacParams).2.2.1, ?_⟩
  exact (c5_stsd_alac_layout demoAlacParams).2.2.2 (alacPayload demoAlacParams)
    (by decide) (by decide)

theorem selectVariantLoop_cons_some (v : Variant) (rest : List Variant)
    (n : Int) (hc : v.codecs = "alac") (hat : audioRate v = some n) :
    selectVariantLoop (v :: rest) =
      if n ≤ 192000 then .ok v else selectVariantLoop rest := by
  rw [selectVariantLoop, if_pos hc, hat]

theorem selectVariantLoop_cons_none (v : Variant) (rest : List Variant)
    (hc : v.codecs = "alac") (hat : audioRate v = none) :
    selectVariantLoop (v :: rest) = .error "invalid Audio attribute" := by
  rw [selectVariantLoop, if_pos hc, hat]

theorem selectVariantLoop_cons_skip (v : Variant) (rest : List Variant)
    (hc : ¬ v.codecs = "alac") :
    selectVariantLoop (v :: rest) = selectVariantLoop rest := by
  rw [selectVariantLoop, if_neg hc]

theorem selectVariantLoop_spec : ∀ vs : List Variant,
    (∀ v, selectVariantLoop vs = .ok v → firstEligible vs = some v) ∧
    (firstEligible vs = none → ∃ e, selectVariantLoop vs = .error e) := by
  intro vs
  induction vs with
  | nil =>
    constructor
    · intro v h; simp [selectVariantLoop] at h
    · intro _; exact ⟨"no codec found", rfl⟩
  | cons v rest ih =>
    by_cases hc : v.codecs = "alac"
    · cases hat : audioRate v with
      | none =>
        have hel : ¬ isEligible v := by simp [isEligible, hat]
        constructor
        · intro w hw
          rw [selectVariantLoop_cons_none v rest hc hat] at hw
          simp at hw
        · intro _
          exact ⟨"invalid Audio attribute",
            selectVariantLoop_cons_none v rest hc hat⟩
      | some n =>
        by_cases hn : n ≤ 192000
        · have hel : isEligible v := by simp [isEligible, hc, hat, hn]
          constructor
          · intro w hw
            rw [selectVariantLoop_cons_some v rest n hc hat, if_pos hn] at hw
            rw [firstEligible, List.find?_cons_of_pos _ hel]
            simp at hw
            rw [hw]
          · intro hnone
            rw [firstEligible, List.find?_cons_of_pos _ hel] at hnone
            simp at hnone
        · have hel : ¬ isEligible v := by simp [isEligible, hat, hn]
          constructor
          · intro w hw
            rw [selectVariantLoop_cons_some v rest n hc hat, if_neg hn] at hw
            rw [firstEligible, List.find?_cons_of_neg _ hel]
            exact ih.1 w hw
          · intro hnone
            rw [firstEligible, List.find?_cons_of_neg _ hel] at hnone
            obtain ⟨e, he⟩ := ih.2 hnone
            refine ⟨e, ?_⟩
            rw [selectVariantLoop_cons_some v rest n hc hat, if_neg hn]
            exact he
    · have hel : ¬ isEligible v := by simp [isEligible, hc]
      constructor
      · intro w hw
        rw [selectVariantLoop_cons_skip v rest hc] at hw
        rw [firstEligible, List.find?_cons_of_neg _ hel]
        exact ih.1 w hw
      · intro hnone
        rw [firstEligible, List.find?_cons_of_neg _ hel] at hnone
        obtain ⟨e, he⟩ := ih.2 hnone
        refine ⟨e, ?_⟩
        rw [selectVariantLoop_cons_skip v rest hc]
        exact he

/-- Claim C1: whenever ExtractMedia succeeds on a decoded master, the
returned media URL comes from the first variant — in descending
average-bandwidth order — with `CODECS == "alac"` and a dash-split `Audio`
numeric component at position `len-2` that is ≤ 192000, with the variant's
URI resolved against the master URL, a trailing `.m3u8` trimmed from the
path, and `_m.mp4` appended; and when no such variant exists the operation
fails. -/
theorem c1_extract_media (masterUrl : GoURL) (variants : List Variant) :
    (∀ u, extractMediaUrl masterUrl variants = .ok u →
      ∃ v ru, firstEligible (sortByBandwidthDesc variants) = some v ∧
        resolveReference masterUrl v.uri = some ru ∧
        u = urlString { ru with
          path := goTrimSuffix ru.path ".m3u8" ++ "_m.mp4" }) ∧
    (firstEligible (sortByBandwidthDesc variants) = none →
      ∃ e, extractMediaUrl masterUrl variants = .error e) := by
  constructor
  · intro u hu
    cases hsel : selectVariantLoop (sortByBandwidthDesc variants) with
    | error e =>
      rw [extractMediaUrl, hsel] at hu
      simp at hu
    | ok v =>
      have hval : extractMediaUrl masterUrl variants =
          match resolveReference masterUrl v.uri with
          | none => .error "invalid variant uri"
          | some ru => .ok (urlString { ru with
              path := goTrimSuffix ru.path ".m3u8" ++ "_m.mp4" }) := by
        rw [extractMediaUrl, hsel]
      rw [hval] at hu
      cases hres : resolveReference masterUrl v.uri with
      | none => rw [hres] at hu; simp at hu
      | some ru =>
        rw [hres] at hu
        simp at hu
        exact ⟨v, ru, (selectVariantLoop_spec _).1 v hsel, hres, hu.symm⟩
  · intro hnone
    obtain ⟨e, he⟩ := (selectVariantLoop_spec _).2 hnone
    refine ⟨e, ?_⟩
    rw [extractMediaUrl, he]

/-- Witness for C1 at the spec's three-variant example: the 192 kHz ALAC
variant (highest bandwidth among those ≤ 192000) is selected and its URI is
rewritten to `_m.mp4`. -/
theorem c1_witness :
    ∃ v ru, firstEligible (sortByBandwidthDesc demoVariants) = some v ∧
      resolveReference demoMaster v.uri = some ru ∧
      "https://ex.com/a/v192/s_m.mp4" = urlString { ru with
        path := goTrimSuffix ru.path ".m3u8" ++ "_m.mp4" } :=
  (c1_extract_media demoMaster demoVariants).1 "https://ex.com/a/v192/s_m.mp4"
    rfl

/-- Claim C6: for every input that matches the catalog regex with kind
`album` and whose parsed query has a non-empty parameter `i`, the URL
parser returns the pluralized kind `songs` with id equal to `i`'s value
and the storefront from the URL. -/
theorem c6_album_i_override (s sf id0 v : String)
    (hmatch : regexFind s.data = some (sf, "album", id0))
    (hq : goQueryGet s "i" = some v) (hv : v ≠ "") :
    ExtractURLMeta s =
      some { storefront := sf, urlType := "songs", id := v } := by
  rw [ExtractURLMeta, hmatch]
  simp [hq, hv]

/-- Witness for C6: the spec's concrete example
`https://music.apple.com/in/album/foo/111?i=222` parses to storefront
`in`, kind `songs`, id `222`. -/
theorem c6_witness :
    ExtractURLMeta "https://music.apple.com/in/album/foo/111?i=222" =
      some { storefront := "in", urlType := "songs", id := "222" } :=
  c6_album_i_override "https://music.apple.com/in/album/foo/111?i=222"
    "in" "111" "222" rfl rfl (by decide)

/-- Witness for C10: after taking the only pending request (key `"1:2:3"`),
resubmitting the same key is accepted. -/
theorem c10_witness :
    (SongQueueState.mk [] (some demoRequest123)).processing =
      some demoRequest123 ∧
    AddRequest (SongQueueState.mk [] (some demoRequest123)) 1 2 3 "u" =
      .ok (SongQueueState.mk [demoRequest123] (some demoRequest123),
           demoRequest123) :=
  c10_duplicate_only_pending (SongQueueState.mk [demoRequest123] none)
    demoRequest123 (SongQueueState.mk [] (some demoRequest123)) 1 2 3 "u"
    (by decide) (by decide) (by simp) (by decide)

end AlacBot
